import Mathlib

/-!
Shallow embedding of the contract-analyzer application (src/app.py) and
verification of its specification claims.

The application is a single-page tool: it compiles a contract text into a
fixed prompt template, sends it to an LLM service, extracts a JSON payload
from the completion (tolerating markdown code fences), stores the parsed
result in session state, and renders/export the findings.

The embedding models the Python string primitives the code relies on
(`str.find`, slicing, `str.strip`, `str.upper`, `in`, `str.format`) with
their CPython semantics, and the application's own logic as pure functions
over an explicit session state.  Machine-checked claims follow the
definitions.
-/

namespace ContractAnalyzer

/-! ## Python string primitives -/

/-- Characters for which CPython `str.strip()` removes an occurrence
(`Py_UNICODE_ISSPACE`). -/
def pyIsSpace (c : Char) : Bool :=
  c = '\x09' || c = '\x0a' || c = '\x0b' || c = '\x0c' || c = '\x0d' ||
  c = '\x1c' || c = '\x1d' || c = '\x1e' || c = '\x1f' || c = '\x20' ||
  c = '\u0085' || c = '\u00a0' || c = '\u1680' || c = '\u2000' ||
  c = '\u2001' || c = '\u2002' || c = '\u2003' || c = '\u2004' ||
  c = '\u2005' || c = '\u2006' || c = '\u2007' || c = '\u2008' ||
  c = '\u2009' || c = '\u200a' || c = '\u2028' || c = '\u2029' ||
  c = '\u202f' || c = '\u205f' || c = '\u3000'

/-- Model of Python `str.strip()`: remove leading and trailing whitespace. -/
def pyStrip (s : String) : String :=
  ⟨((s.data.dropWhile pyIsSpace).reverse.dropWhile pyIsSpace).reverse⟩

/-- Occurrence test: `sub` occurs in `hay` starting at character index `i`. -/
def occursAt (hay sub : List Char) (i : Nat) : Bool :=
  sub.isPrefixOf (hay.drop i)

/-- Index of the first occurrence of `sub` in `hay`, if any. -/
def firstMatch (hay sub : List Char) : Option Nat :=
  match hay with
  | [] => if sub.isPrefixOf [] then some 0 else none
  | c :: t =>
    if sub.isPrefixOf (c :: t) then some 0
    else (firstMatch t sub).map (· + 1)

/-- Model of Python `str.find(sub, start)` restricted to a nonnegative
`start`, returning the matched character index when one exists.  CPython
returns `-1` whenever `start` exceeds the length, even for the empty
substring. -/
def pyFindNat (hay sub : List Char) (start : Nat) : Option Nat :=
  if start ≤ hay.length then (firstMatch (hay.drop start) sub).map (· + start)
  else none

/-- Model of Python `str.find(sub, start)` with the `-1` not-found sentinel. -/
def pyFind (s sub : String) (start : Nat) : Int :=
  match pyFindNat s.data sub.data start with
  | some i => (i : Int)
  | none => -1

/-- Model of Python `sub in s` (substring containment). -/
def pyIn (sub s : String) : Bool :=
  (pyFindNat s.data sub.data 0).isSome

/-- Normalize a Python slice bound against a string of length `n`:
negative bounds count from the end, and both ends clamp into `[0, n]`. -/
def normIdx (n : Nat) (i : Int) : Nat :=
  if i < 0 then (i + n).toNat else min i.toNat n

/-- Model of Python slicing `s[a:b]` (unit step). -/
def pySlice (s : String) (a b : Int) : String :=
  ⟨(s.data.take (normIdx s.data.length b)).drop (normIdx s.data.length a)⟩

/-- Model of Python `str.upper()`.  The severity tiers this system upcases
are ASCII, where CPython's case mapping agrees with `Char.toUpper`. -/
def pyUpper (s : String) : String :=
  s.map Char.toUpper

/-! ## Data model

Shapes of the parsed analysis payload (src/app.py expects the keys
`summary.total_issues` etc. and the six per-finding fields), and the
Streamlit session state (src/app.py lines 14-18, 213-214). -/

/-- One reported contract issue, as parsed from the model response. -/
structure Finding where
  category : String
  severity : String
  issue : String
  details : String
  location : String
  recommendation : String
deriving DecidableEq, Repr

/-- The self-reported summary counts of an analysis. -/
structure Summary where
  total_issues : Int
  critical : Int
  warning : Int
  informational : Int
deriving DecidableEq, Repr

/-- The parsed analysis payload: summary counts plus the ordered findings. -/
structure AnalysisResult where
  summary : Summary
  findings : List Finding
deriving DecidableEq, Repr

/-- The Streamlit session state the application reads and writes:
`st.session_state.analysis_results`, `st.session_state.uploaded_file_name`,
and `st.session_state.analysis_date` (set on success at line 214). -/
structure Session where
  analysis_results : Option AnalysisResult
  uploaded_file_name : Option String
  analysis_date : Option String
deriving DecidableEq, Repr

/-! ## Response extraction (src/app.py lines 118-130)

The code takes the completion text and, before `json.loads`, rewrites it:

    if "```json" in response_text:
        json_start = response_text.find("```json") + 7
        json_end = response_text.find("```", json_start)
        response_text = response_text[json_start:json_end].strip()
    elif "```" in response_text:
        json_start = response_text.find("```") + 3
        json_end = response_text.find("```", json_start)
        response_text = response_text[json_start:json_end].strip()

With no fence present the text is passed to the parser unchanged. -/

/-- The JSON-candidate string handed to `json.loads`. -/
def extractJson (response_text : String) : String :=
  if pyIn "```json" response_text then
    let json_start : Int := pyFind response_text "```json" 0 + 7
    let json_end : Int := pyFind response_text "```" json_start.toNat
    pyStrip (pySlice response_text json_start json_end)
  else if pyIn "```" response_text then
    let json_start : Int := pyFind response_text "```" 0 + 3
    let json_end : Int := pyFind response_text "```" json_start.toNat
    pyStrip (pySlice response_text json_start json_end)
  else
    response_text

/-! ## Python `str.format` (used at src/app.py line 112)

The prompt is compiled with `CONTRACT_ANALYSIS_PROMPT.format(contract_text=...)`.
CPython scans the template left to right: doubled braces are literal, a
single opening brace starts a replacement field whose name runs up to `!`,
`:` or the closing brace, and a format spec is skipped with brace-depth
counting.  The field object is looked up (raising `KeyError` for an unknown
keyword name, `IndexError` for a positional name when no positional
arguments were supplied) before any conversion or spec is applied. -/

/-- Errors `str.format` can raise while compiling a template. -/
inductive PyFormatError where
  | keyError (name : String)
  | indexError
  | valueError (msg : String)
deriving DecidableEq, Repr

/-- Scanner state for the `str.format` template walk: inside literal text,
just after a lone brace in literal text, inside a field name, at or after
the conversion marker, or inside a format spec (with brace depth). -/
inductive ScanState where
  | lit
  | litLB
  | litRB
  | name (nm : List Char)
  | conv (nm : List Char)
  | afterConv (nm : List Char) (cv : Char)
  | spec (nm : List Char) (cv : Option Char) (acc : List Char) (depth : Nat)
deriving DecidableEq, Repr

/-- Resolve one replacement field against keyword arguments, mirroring
CPython's order: the field object is fetched first (`KeyError` /
`IndexError` on failure), and only then would conversion and format spec be
applied.  Attribute/index access, conversions and non-empty format specs
never get resolved when this model is applied to the application's template
(its sole resolvable field is `contract_text`, bare with an empty spec, and
the earlier field fails at lookup), so those arms return a sentinel error. -/
def resolveField (args : List (String × String)) (nm : List Char)
    (cv : Option Char) (sp : List Char) : Except PyFormatError String :=
  let base := nm.takeWhile (fun c => !(c = '.' || c = '['))
  if base.isEmpty || base.all (·.isDigit) then
    .error .indexError
  else
    match args.find? (fun p => p.1.data == base) with
    | none => .error (.keyError ⟨base⟩)
    | some p =>
      if base ≠ nm then .error (.valueError "attribute and index access not reached")
      else
        match cv with
        | some _ => .error (.valueError "conversion rendering not reached")
        | none =>
          if sp.isEmpty then .ok p.2
          else .error (.valueError "format spec rendering not reached")

/-- One-pass scan of a `str.format` template, appending formatted output
to an accumulator the way CPython appends to its output writer, and
returning the formatted character list or the first error raised. -/
def formatScan (args : List (String × String)) :
    List Char → ScanState → List Char → Except PyFormatError (List Char)
  | [], .lit, acc => .ok acc
  | [], .litRB, _ => .error (.valueError "single closing brace encountered in format string")
  | [], _, _ => .error (.valueError "expected closing brace before end of string")
  | c :: rest, .lit, acc =>
    if c = '\x7b' then formatScan args rest .litLB acc
    else if c = '\x7d' then formatScan args rest .litRB acc
    else formatScan args rest .lit (acc ++ [c])
  | c :: rest, .litRB, acc =>
    if c = '\x7d' then formatScan args rest .lit (acc ++ ['\x7d'])
    else .error (.valueError "single closing brace encountered in format string")
  | c :: rest, .litLB, acc =>
    if c = '\x7b' then formatScan args rest .lit (acc ++ ['\x7b'])
    else if c = '\x7d' then
      match resolveField args [] none [] with
      | .error e => .error e
      | .ok v => formatScan args rest .lit (acc ++ v.data)
    else if c = ':' then formatScan args rest (.spec [] none [] 1) acc
    else if c = '!' then formatScan args rest (.conv []) acc
    else formatScan args rest (.name [c]) acc
  | c :: rest, .name nm, acc =>
    if c = '\x7d' then
      match resolveField args nm none [] with
      | .error e => .error e
      | .ok v => formatScan args rest .lit (acc ++ v.data)
    else if c = ':' then formatScan args rest (.spec nm none [] 1) acc
    else if c = '!' then formatScan args rest (.conv nm) acc
    else if c = '\x7b' then .error (.valueError "unexpected opening brace in field name")
    else formatScan args rest (.name (nm ++ [c])) acc
  | c :: rest, .conv nm, acc =>
    if c = '\x7d' then .error (.valueError "end of format while looking for conversion specifier")
    else formatScan args rest (.afterConv nm c) acc
  | c :: rest, .afterConv nm cv, acc =>
    if c = '\x7d' then
      match resolveField args nm (some cv) [] with
      | .error e => .error e
      | .ok v => formatScan args rest .lit (acc ++ v.data)
    else if c = ':' then formatScan args rest (.spec nm (some cv) [] 1) acc
    else .error (.valueError "expected colon after conversion specifier")
  | c :: rest, .spec nm cv sp depth, acc =>
    if c = '\x7d' then
      if depth = 1 then
        match resolveField args nm cv sp with
        | .error e => .error e
        | .ok v => formatScan args rest .lit (acc ++ v.data)
      else formatScan args rest (.spec nm cv (sp ++ [c]) (depth - 1)) acc
    else if c = '\x7b' then formatScan args rest (.spec nm cv (sp ++ [c]) (depth + 1)) acc
    else formatScan args rest (.spec nm cv (sp ++ [c]) depth) acc

/-- Model of Python `template.format(**kwargs)` with string keyword
arguments. -/
def pyFormatKw (template : String) (args : List (String × String)) :
    Except PyFormatError String :=
  (fun l => (⟨l⟩ : String)) <$> formatScan args template.data .lit []

/-! ## The prompt template (src/app.py lines 50-99)

The exact contents of `CONTRACT_ANALYSIS_PROMPT`; braces are written as
`\x7b` / `\x7d` escapes. -/

/-- The fixed analysis prompt template. -/
def CONTRACT_ANALYSIS_PROMPT : String :=
  "You are an expert construction contract analyst specializing in identifying risks, red flags, and issues in construction contracts. \n" ++
  "\n" ++
  "Analyze the following construction contract and provide a comprehensive analysis focusing on:\n" ++
  "\n" ++
  "1. **Critical Issues** - Must be resolved before signing (missing GMP, undefined dates, lack of bonds)\n" ++
  "2. **Warnings** - Items requiring negotiation or clarification (high markups, unfavorable terms, vague language)\n" ++
  "3. **Informational** - Items to be aware of (standard clauses, best practices, recommendations)\n" ++
  "\n" ++
  "For each issue found, provide:\n" ++
  "- Category (Payment Terms, Timeline, Insurance, Scope, Risk Allocation, etc.)\n" ++
  "- Severity (critical, warning, informational)\n" ++
  "- Specific issue description\n" ++
  "- Exact location in contract (Article, Section)\n" ++
  "- Recommendation for project manager\n" ++
  "\n" ++
  "Focus on common construction contract red flags:\n" ++
  "- Incomplete or TBD pricing/dates\n" ++
  "- Missing or inadequate bonds/insurance\n" ++
  "- Unclear scope definition\n" ++
  "- Unfavorable payment terms\n" ++
  "- Weak change order provisions\n" ++
  "- High liquidated damages without caps\n" ++
  "- Vague completion criteria\n" ++
  "- Missing exhibits or schedules\n" ++
  "- Unbalanced risk allocation\n" ++
  "- Problematic dispute resolution terms\n" ++
  "\n" ++
  "Format your response as a JSON object with this structure:\n" ++
  "\x7b\n" ++
  "  \"summary\": \x7b\n" ++
  "    \"total_issues\": <number>,\n" ++
  "    \"critical\": <number>,\n" ++
  "    \"warning\": <number>,\n" ++
  "    \"informational\": <number>\n" ++
  "  \x7d,\n" ++
  "  \"findings\": [\n" ++
  "    \x7b\n" ++
  "      \"category\": \"<category>\",\n" ++
  "      \"severity\": \"<critical|warning|informational>\",\n" ++
  "      \"issue\": \"<brief title>\",\n" ++
  "      \"details\": \"<detailed explanation>\",\n" ++
  "      \"location\": \"<Article X, Section Y>\",\n" ++
  "      \"recommendation\": \"<action to take>\"\n" ++
  "    \x7d\n" ++
  "  ]\n" ++
  "\x7d\n" ++
  "\n" ++
  "CONTRACT TEXT:\n" ++
  "\x7bcontract_text\x7d\n"

/-- Prompt compilation as performed at src/app.py line 112:
`CONTRACT_ANALYSIS_PROMPT.format(contract_text=contract_text)`. -/
def compilePrompt (contract_text : String) : Except PyFormatError String :=
  pyFormatKw CONTRACT_ANALYSIS_PROMPT [("contract_text", contract_text)]

/-! ## Input acquisition (src/app.py lines 148-189)

An uploaded file carries a name, a MIME type, and the outcome of
`uploaded_file.read().decode(strUtf8)`: `some text` when the bytes decode,
`none` when decoding raises (the surrounding `try` turns that into
`contract_text = None`). -/

/-- An uploaded file as seen by the reading code. -/
structure UploadedFile where
  name : String
  mime : String
  decoded : Option String
deriving DecidableEq, Repr

/-- File-content reading, src/app.py lines 166-179: plain text is decoded;
PDF and Word files produce an advisory and no text; anything else is
decoded like plain text; a decode failure is caught and yields no text. -/
def readFileContent (f : UploadedFile) : Option String :=
  if f.mime = "text/plain" then f.decoded
  else if f.mime = "application/pdf" then none
  else if pyIn "word" f.mime || f.name.endsWith ".doc" || f.name.endsWith ".docx" then none
  else f.decoded

/-- The value of the `contract_text` variable when the analyze handler
runs: the upload section (lines 166-179) sets it from the file, then the
manual-paste section (lines 188-189) overwrites it whenever the pasted text
is non-empty.  `none` covers both an unset variable (no upload, no paste)
and the explicit `None` left by an unsupported or undecodable upload. -/
def contractTextVar (uploaded : Option UploadedFile) (manual : String) : Option String :=
  if manual ≠ "" then some manual
  else
    match uploaded with
    | some f => readFileContent f
    | none => none

/-- Disabled condition of the analyze control, src/app.py line 200:
`not api_key or (not uploaded_file and not manual_text)` under Python
truthiness (empty strings and `None` are falsy). -/
def analyzeDisabled (api_key : String) (uploaded : Option UploadedFile)
    (manual : String) : Bool :=
  api_key = "" || (uploaded.isNone && manual = "")

/-- Whether the guarded analysis call actually runs, src/app.py lines
196-210: the button must be clicked (impossible while disabled), the API
key re-checked, and `contract_text` must be defined and truthy. -/
def analysisRuns (clicked : Bool) (api_key : String)
    (uploaded : Option UploadedFile) (manual : String) : Bool :=
  (clicked && !analyzeDisabled api_key uploaded manual) && !(api_key = "") &&
    (match contractTextVar uploaded manual with
     | some t => !(t = "")
     | none => false)

/-- Session update performed by the analyze handler, src/app.py lines
210-214: the call's outcome is `some result` on success and `none` when the
service call, extraction or JSON parse failed (the `except` branch returns
`None`); only a truthy outcome is stored, together with the analysis date. -/
def storeAnalysisOutcome (s : Session) (outcome : Option AnalysisResult)
    (now : String) : Session :=
  match outcome with
  | some r => { s with analysis_results := some r, analysis_date := some now }
  | none => s

/-! ## Presentation (src/app.py lines 219-315) -/

/-- The three risk banners of src/app.py lines 258-263. -/
inductive Risk where
  | high
  | moderate
  | low
deriving DecidableEq, Repr

/-- Risk-banner choice, src/app.py lines 258-263: `critical > 0` shows the
high-risk banner, otherwise `warning > 3` the moderate one, otherwise the
low-risk one. -/
def riskLevel (critical warning : Int) : Risk :=
  if critical > 0 then .high
  else if warning > 3 then .moderate
  else .low

/-- The selectable severity options of the filter widget, src/app.py lines
273-277 (also its default selection). -/
def severityOptions : List String :=
  ["critical", "warning", "informational"]

/-- The findings list built at src/app.py line 280:
`[f for f in results[strFindings] if f[strSeverity] in severity_filter]`. -/
def filteredFindings (findings : List Finding) (severity_filter : List String) :
    List Finding :=
  findings.filter (fun f => severity_filter.contains f.severity)

/-- The whole results-display block (src/app.py lines 219-315) as a state
transformer: it renders the banner and the filtered findings from the
stored result and performs no session write. -/
def displayResults (s : Session) (severity_filter : List String) :
    Option (Risk × List Finding) × Session :=
  match s.analysis_results with
  | none => (none, s)
  | some r =>
    (some (riskLevel r.summary.critical r.summary.warning,
           filteredFindings r.findings severity_filter), s)

/-! ## Text-report export (src/app.py lines 333-358) -/

/-- File label in the report header, src/app.py line 337:
`st.session_state.uploaded_file_name or "Manual Input"` (Python `or`
replaces both `None` and the empty string). -/
def fileLabel (uploaded_file_name : Option String) : String :=
  match uploaded_file_name with
  | some n => if n = "" then "Manual Input" else n
  | none => "Manual Input"

/-- The report header f-string, src/app.py lines 335-349, with the
generation timestamp already rendered. -/
def reportHeader (generated : String) (uploaded_file_name : Option String)
    (sm : Summary) : String :=
  "CONTRACT ANALYSIS REPORT\n" ++
  "Generated: " ++ generated ++ "\n" ++
  "File: " ++ fileLabel uploaded_file_name ++ "\n" ++
  "\n" ++
  "SUMMARY\n" ++
  "=======\n" ++
  "Total Issues: " ++ toString sm.total_issues ++ "\n" ++
  "Critical: " ++ toString sm.critical ++ "\n" ++
  "Warnings: " ++ toString sm.warning ++ "\n" ++
  "Informational: " ++ toString sm.informational ++ "\n" ++
  "\n" ++
  "DETAILED FINDINGS\n" ++
  "=================\n" ++
  "\n"

/-- The per-finding f-string appended in the loop at src/app.py lines
350-358 for list index `idx` (counting from 1). -/
def findingEntry (idx : Nat) (f : Finding) : String :=
  "\n" ++ toString idx ++ ". [" ++ pyUpper f.severity ++ "] " ++ f.issue ++ "\n" ++
  "   Category: " ++ f.category ++ "\n" ++
  "   Details: " ++ f.details ++ "\n" ++
  "   Location: " ++ f.location ++ "\n" ++
  "   Recommendation: " ++ f.recommendation ++ "\n" ++
  "\n"

/-- The report accumulation loop, src/app.py lines 335-358: start from the
header, then `report += entry` for `idx, finding in enumerate(findings, 1)`.
It walks `results[strFindings]`, not the filtered list. -/
def buildReport (generated : String) (uploaded_file_name : Option String)
    (r : AnalysisResult) : String :=
  (r.findings.enumFrom 1).foldl
    (fun report p => report ++ findingEntry p.1 p.2)
    (reportHeader generated uploaded_file_name r.summary)

/-- The export block as it sits in the display section: the severity filter
is in scope (line 273) but the report is built from the unfiltered stored
result only. -/
def exportReport (s : Session) (severity_filter : List String)
    (generated : String) : Option String :=
  match s.analysis_results with
  | none => none
  | some r =>
    let _ := severity_filter
    some (buildReport generated s.uploaded_file_name r)

/-! ## Sample data (the scenario of spec section 8) -/

/-- The example finding from the specification's scenario. -/
def sampleFinding : Finding :=
  { category := "Payment Terms", severity := "critical", issue := "No GMP",
    details := "...", location := "Article 4", recommendation := "Add GMP clause" }

/-- The example summary from the specification's scenario. -/
def sampleSummary : Summary :=
  { total_issues := 1, critical := 1, warning := 0, informational := 0 }

/-- The example analysis result from the specification's scenario. -/
def sampleResult : AnalysisResult :=
  { summary := sampleSummary, findings := [sampleFinding] }

/-! ## Helper lemmas about the string primitives -/

theorem isPrefixOf_nil_iff (sub : List Char) : sub.isPrefixOf [] = true ↔ sub = [] := by
  cases sub <;> simp [List.isPrefixOf]

theorem length_le_of_isPrefixOf :
    ∀ (a b : List Char), a.isPrefixOf b = true → a.length ≤ b.length := by
  intro a
  induction a with
  | nil => intro b _; simp
  | cons x xs ih =>
    intro b h
    cases b with
    | nil => simp [List.isPrefixOf] at h
    | cons y ys =>
      simp only [List.isPrefixOf, Bool.and_eq_true] at h
      simpa using ih ys h.2

theorem isPrefixOf_trans :
    ∀ (a b c : List Char), a.isPrefixOf b = true → b.isPrefixOf c = true →
    a.isPrefixOf c = true := by
  intro a
  induction a with
  | nil => intro b c _ _; simp [List.isPrefixOf]
  | cons x xs ih =>
    intro b c hab hbc
    cases b with
    | nil => simp [List.isPrefixOf] at hab
    | cons y ys =>
      cases c with
      | nil => simp [List.isPrefixOf] at hbc
      | cons z zs =>
        simp only [List.isPrefixOf, Bool.and_eq_true, beq_iff_eq] at hab hbc ⊢
        exact ⟨hab.1.trans hbc.1, ih ys zs hab.2 hbc.2⟩

theorem occursAt_zero (hay sub : List Char) :
    occursAt hay sub 0 = sub.isPrefixOf hay := rfl

theorem occursAt_succ (c : Char) (t sub : List Char) (i : Nat) :
    occursAt (c :: t) sub (i + 1) = occursAt t sub i := rfl

theorem occursAt_nil (sub : List Char) (i : Nat) :
    occursAt [] sub i = sub.isPrefixOf [] := by
  simp [occursAt]

theorem lt_length_of_occursAt {hay sub : List Char} {i : Nat}
    (hsub : sub ≠ []) (h : occursAt hay sub i = true) : i < hay.length := by
  by_contra hge
  push_neg at hge
  have hdrop : hay.drop i = [] := List.drop_eq_nil_of_le hge
  rw [occursAt, hdrop] at h
  exact hsub ((isPrefixOf_nil_iff sub).mp h)

theorem add_length_le_of_occursAt {hay sub : List Char} {i : Nat}
    (hsub : sub ≠ []) (h : occursAt hay sub i = true) : i + sub.length ≤ hay.length := by
  have hlt := lt_length_of_occursAt hsub h
  have hlen := length_le_of_isPrefixOf sub (hay.drop i) h
  rw [List.length_drop] at hlen
  omega

theorem firstMatch_none_aux (sub : List Char) :
    ∀ (hay : List Char),
      firstMatch hay sub = none ↔ ∀ j, occursAt hay sub j = false := by
  intro hay
  induction hay with
  | nil =>
    rw [firstMatch]
    by_cases hp : sub.isPrefixOf [] = true
    · rw [if_pos hp]
      constructor
      · rintro ⟨⟩
      · intro h
        have := h 0
        rw [occursAt_nil, hp] at this
        cases this
    · rw [if_neg hp]
      simp only [true_iff]
      intro j
      rw [occursAt_nil]
      simp only [Bool.not_eq_true] at hp
      exact hp
  | cons c t ih =>
    rw [firstMatch]
    by_cases hp : sub.isPrefixOf (c :: t) = true
    · rw [if_pos hp]
      constructor
      · rintro ⟨⟩
      · intro h
        have := h 0
        rw [occursAt_zero, hp] at this
        cases this
    · rw [if_neg hp]
      have hpf : sub.isPrefixOf (c :: t) = false := by
        simp only [Bool.not_eq_true] at hp
        exact hp
      cases hfm : firstMatch t sub with
      | none =>
        simp only [Option.map_none', true_iff]
        intro j
        cases j with
        | zero => rw [occursAt_zero]; exact hpf
        | succ m => rw [occursAt_succ]; exact (ih.mp hfm) m
      | some k =>
        simp only [Option.map_some']
        constructor
        · rintro ⟨⟩
        · intro hall
          exfalso
          have hnone : firstMatch t sub = none := by
            refine ih.mpr ?_
            intro j
            have := hall (j + 1)
            rw [occursAt_succ] at this
            exact this
          rw [hnone] at hfm
          cases hfm

theorem firstMatch_some_iff (sub : List Char) :
    ∀ (hay : List Char) (i : Nat),
      firstMatch hay sub = some i ↔
        (occursAt hay sub i = true ∧ ∀ j, j < i → occursAt hay sub j = false) := by
  intro hay
  induction hay with
  | nil =>
    intro i
    rw [firstMatch]
    by_cases hp : sub.isPrefixOf [] = true
    · rw [if_pos hp]
      constructor
      · intro h
        injection h with h
        subst h
        exact ⟨by rw [occursAt_nil]; exact hp, by omega⟩
      · rintro ⟨-, hmin⟩
        rcases Nat.eq_zero_or_pos i with rfl | hpos
        · rfl
        · have := hmin 0 hpos
          rw [occursAt_nil, hp] at this
          cases this
    · rw [if_neg hp]
      constructor
      · rintro ⟨⟩
      · rintro ⟨hocc, -⟩
        rw [occursAt_nil] at hocc
        exact absurd hocc hp
  | cons c t ih =>
    intro i
    rw [firstMatch]
    by_cases hp : sub.isPrefixOf (c :: t) = true
    · rw [if_pos hp]
      constructor
      · intro h
        injection h with h
        subst h
        exact ⟨by rw [occursAt_zero]; exact hp, by omega⟩
      · rintro ⟨-, hmin⟩
        rcases Nat.eq_zero_or_pos i with rfl | hpos
        · rfl
        · have := hmin 0 hpos
          rw [occursAt_zero, hp] at this
          cases this
    · rw [if_neg hp]
      have hpf : sub.isPrefixOf (c :: t) = false := by
        simp only [Bool.not_eq_true] at hp
        exact hp
      cases hfm : firstMatch t sub with
      | none =>
        simp only [Option.map_none']
        constructor
        · rintro ⟨⟩
        · rintro ⟨hocc, -⟩
          cases i with
          | zero =>
            rw [occursAt_zero, hpf] at hocc
            cases hocc
          | succ n =>
            have hall := (firstMatch_none_aux sub t).mp hfm n
            rw [occursAt_succ, hall] at hocc
            cases hocc
      | some k =>
        simp only [Option.map_some']
        have hk := (ih k).mp hfm
        constructor
        · intro h
          injection h with h
          subst h
          refine ⟨by rw [occursAt_succ]; exact hk.1, ?_⟩
          intro j hj
          cases j with
          | zero => rw [occursAt_zero]; exact hpf
          | succ m => rw [occursAt_succ]; exact hk.2 m (by omega)
        · rintro ⟨hocc, hmin⟩
          cases i with
          | zero =>
            rw [occursAt_zero, hpf] at hocc
            cases hocc
          | succ n =>
            rw [occursAt_succ] at hocc
            have hkn : k = n := by
              by_contra hne
              rcases Nat.lt_or_ge k n with hlt | hge
              · have := hmin (k + 1) (by omega)
                rw [occursAt_succ, hk.1] at this
                cases this
              · have := hk.2 n (by omega)
                rw [this] at hocc
                cases hocc
            rw [hkn]

theorem firstMatch_none_iff (sub : List Char) (hay : List Char) :
    firstMatch hay sub = none ↔ ∀ j, occursAt hay sub j = false :=
  firstMatch_none_aux sub hay

theorem occursAt_drop (hay sub : List Char) (start k : Nat) :
    occursAt (hay.drop start) sub k = occursAt hay sub (start + k) := by
  simp [occursAt, List.drop_drop]

theorem pyFindNat_some_iff {sub : List Char} (hsub : sub ≠ [])
    (hay : List Char) (start i : Nat) :
    pyFindNat hay sub start = some i ↔
      (start ≤ i ∧ occursAt hay sub i = true ∧
       ∀ j, start ≤ j → j < i → occursAt hay sub j = false) := by
  rw [pyFindNat]
  by_cases hstart : start ≤ hay.length
  · rw [if_pos hstart]
    cases hfm : firstMatch (hay.drop start) sub with
    | none =>
      simp only [Option.map_none']
      constructor
      · rintro ⟨⟩
      · rintro ⟨hle, hocc, -⟩
        have hall := (firstMatch_none_iff sub (hay.drop start)).mp hfm (i - start)
        rw [occursAt_drop] at hall
        have heq : start + (i - start) = i := by omega
        rw [heq, hocc] at hall
        cases hall
    | some k =>
      simp only [Option.map_some']
      have hk := (firstMatch_some_iff sub (hay.drop start) k).mp hfm
      rw [occursAt_drop] at hk
      constructor
      · intro h
        injection h with h
        subst h
        refine ⟨by omega, by rw [Nat.add_comm k start]; exact hk.1, ?_⟩
        intro j hj1 hj2
        have := hk.2 (j - start) (by omega)
        rw [occursAt_drop] at this
        have heq : start + (j - start) = j := by omega
        rw [heq] at this
        exact this
      · rintro ⟨hle, hocc, hmin⟩
        have hki : k + start = i := by
          by_contra hne
          rcases Nat.lt_or_ge (k + start) i with hlt | hge
          · have := hmin (k + start) (by omega) hlt
            rw [Nat.add_comm k start] at this
            rw [this] at hk
            exact absurd hk.1 (by simp)
          · have hgt : i < k + start := by omega
            have := hk.2 (i - start) (by omega)
            rw [occursAt_drop] at this
            have heq : start + (i - start) = i := by omega
            rw [heq] at this
            rw [this] at hocc
            cases hocc
        rw [hki]
  · rw [if_neg hstart]
    constructor
    · rintro ⟨⟩
    · rintro ⟨hle, hocc, -⟩
      have := lt_length_of_occursAt hsub hocc
      omega

theorem pyFindNat_none_iff {sub : List Char} (hsub : sub ≠ [])
    (hay : List Char) (start : Nat) :
    pyFindNat hay sub start = none ↔
      ∀ j, start ≤ j → occursAt hay sub j = false := by
  rw [pyFindNat]
  by_cases hstart : start ≤ hay.length
  · rw [if_pos hstart]
    cases hfm : firstMatch (hay.drop start) sub with
    | none =>
      simp only [Option.map_none', true_iff]
      intro j hj
      have := (firstMatch_none_iff sub (hay.drop start)).mp hfm (j - start)
      rw [occursAt_drop] at this
      have heq : start + (j - start) = j := by omega
      rw [heq] at this
      exact this
    | some k =>
      simp only [Option.map_some']
      constructor
      · rintro ⟨⟩
      · intro hall
        exfalso
        have hk := (firstMatch_some_iff sub (hay.drop start) k).mp hfm
        rw [occursAt_drop] at hk
        have hfalse := hall (start + k) (by omega)
        rw [hfalse] at hk
        exact absurd hk.1 (by simp)
  · rw [if_neg hstart]
    simp only [true_iff]
    intro j hj
    by_contra hocc
    rw [Bool.not_eq_false] at hocc
    have := lt_length_of_occursAt hsub hocc
    omega

theorem pyIn_true_iff {sub : String} (hsub : sub.data ≠ []) (s : String) :
    pyIn sub s = true ↔ ∃ i, occursAt s.data sub.data i = true := by
  rw [pyIn, Option.isSome_iff_exists]
  constructor
  · rintro ⟨i, hi⟩
    exact ⟨i, ((pyFindNat_some_iff hsub s.data 0 i).mp hi).2.1⟩
  · rintro ⟨i, hi⟩
    cases h : pyFindNat s.data sub.data 0 with
    | none =>
      have := (pyFindNat_none_iff hsub s.data 0).mp h i (by omega)
      rw [this] at hi
      cases hi
    | some k => exact ⟨k, rfl⟩

theorem pyIn_false_iff {sub : String} (hsub : sub.data ≠ []) (s : String) :
    pyIn sub s = false ↔ ∀ i, occursAt s.data sub.data i = false := by
  rw [← Bool.not_eq_true, pyIn_true_iff hsub]
  simp

theorem occursAt_fence_of_occursAt_tagged {s : List Char} {i : Nat}
    (h : occursAt s "```json".data i = true) : occursAt s "```".data i = true := by
  rw [occursAt] at h ⊢
  exact isPrefixOf_trans _ _ _ (by decide) h

/-! ## Claim C1 -/

set_option maxRecDepth 1000000 in
/-- Claim C1 (code bug): the spec says prompt compilation is a total pure
function of the contract text that always yields the instruction string.
The code instead always raises: the literal JSON example inside
`CONTRACT_ANALYSIS_PROMPT` is not brace-escaped, so
`CONTRACT_ANALYSIS_PROMPT.format(contract_text=...)` (src/app.py line 112)
parses the example's first brace as a replacement field and raises
`KeyError` on the field name `"\n  \"summary\""` for every input, before
any service call is made. -/
theorem compilePrompt_always_fails (contract_text : String) :
    compilePrompt contract_text =
      .error (.keyError "\n  \"summary\"") := rfl

/-- Witness: the failure at the concrete contract text of the spec
scenario. -/
theorem compilePrompt_always_fails_witness :
    compilePrompt "Sample construction contract." =
      .error (.keyError "\n  \"summary\"") :=
  compilePrompt_always_fails "Sample construction contract."

/-! ## Slicing and find lemmas for the extraction claims -/

theorem pyFind_eq_some {s sub : String} {start i : Nat}
    (h : pyFindNat s.data sub.data start = some i) :
    pyFind s sub start = (i : Int) := by
  rw [pyFind, h]

theorem pyFind_eq_neg_one {s sub : String} {start : Nat}
    (h : pyFindNat s.data sub.data start = none) :
    pyFind s sub start = -1 := by
  rw [pyFind, h]

theorem normIdx_coe (n a : Nat) (h : a ≤ n) : normIdx n (a : Int) = a := by
  rw [normIdx, if_neg (by omega)]
  rw [Int.toNat_ofNat]
  omega

theorem normIdx_negOne (n : Nat) : normIdx n (-1) = n - 1 := by
  rw [normIdx, if_pos (by omega)]
  omega

theorem pySlice_coe (s : String) (a b : Nat)
    (ha : a ≤ s.data.length) (hb : b ≤ s.data.length) :
    pySlice s (a : Int) (b : Int) = ⟨(s.data.take b).drop a⟩ := by
  rw [pySlice, normIdx_coe _ _ ha, normIdx_coe _ _ hb]

theorem pySlice_negOne (s : String) (a : Nat) (ha : a ≤ s.data.length) :
    pySlice s (a : Int) (-1) = ⟨(s.data.drop a).dropLast⟩ := by
  rw [pySlice, normIdx_coe _ _ ha, normIdx_negOne]
  congr 1
  rw [List.dropLast_eq_take, List.drop_take, List.length_drop]
  congr 1
  omega

/-! ## Claim C3 -/

/-- Claim C3 (confirmed): for a completion text whose first tagged fence
occurrence starts at index `i` and whose next fence occurrence after the
tag is at index `j`, extraction returns exactly the characters strictly
between the end of the opening tag (index `i + 7`) and that fence, with
surrounding whitespace stripped. -/
theorem tagged_fence_extraction_exact (s : String) (i j : Nat)
    (h1 : occursAt s.data "```json".data i = true)
    (h2 : ∀ k, k < i → occursAt s.data "```json".data k = false)
    (h3 : i + 7 ≤ j)
    (h4 : occursAt s.data "```".data j = true)
    (h5 : ∀ k, i + 7 ≤ k → k < j → occursAt s.data "```".data k = false) :
    extractJson s = pyStrip ⟨(s.data.take j).drop (i + 7)⟩ := by
  have htag : ("```json" : String).data ≠ [] := by decide
  have hfen : ("```" : String).data ≠ [] := by decide
  have hfind1 : pyFindNat s.data "```json".data 0 = some i :=
    (pyFindNat_some_iff htag s.data 0 i).mpr
      ⟨Nat.zero_le i, h1, fun k _ hk => h2 k hk⟩
  have hin1 : pyIn "```json" s = true := by
    rw [pyIn, hfind1]
    rfl
  have hfind2 : pyFindNat s.data "```".data (i + 7) = some j :=
    (pyFindNat_some_iff hfen s.data (i + 7) j).mpr ⟨h3, h4, h5⟩
  have hjlen : j + 3 ≤ s.data.length := by
    have := add_length_le_of_occursAt hfen h4
    simpa using this
  have hilen : i + 7 ≤ s.data.length := by omega
  simp only [extractJson, hin1, if_true]
  rw [pyFind_eq_some hfind1]
  have hcast7 : ((i : Int) + 7).toNat = i + 7 := by omega
  rw [hcast7, pyFind_eq_some hfind2]
  have : ((i : Int) + 7) = ((i + 7 : Nat) : Int) := by omega
  rw [this, pySlice_coe s (i + 7) j hilen (by omega)]

set_option maxRecDepth 1000000 in
/-- Witness for C3: the completion text of the specification's section 8
scenario, whose tagged fence opens at index 20 and closes at index 256. -/
theorem tagged_fence_extraction_exact_witness :
    extractJson "Here is the result:\n```json\n\x7b\"summary\":\x7b\"total_issues\":1,\"critical\":1,\"warning\":0,\"informational\":0\x7d,\"findings\":[\x7b\"category\":\"Payment Terms\",\"severity\":\"critical\",\"issue\":\"No GMP\",\"details\":\"...\",\"location\":\"Article 4\",\"recommendation\":\"Add GMP clause\"\x7d]\x7d\n```" =
      pyStrip ⟨((("Here is the result:\n```json\n\x7b\"summary\":\x7b\"total_issues\":1,\"critical\":1,\"warning\":0,\"informational\":0\x7d,\"findings\":[\x7b\"category\":\"Payment Terms\",\"severity\":\"critical\",\"issue\":\"No GMP\",\"details\":\"...\",\"location\":\"Article 4\",\"recommendation\":\"Add GMP clause\"\x7d]\x7d\n```" : String).data.take 256).drop 27)⟩ :=
  tagged_fence_extraction_exact _ 20 256
    (by decide)
    (by decide)
    (by decide)
    (by decide)
    (fun k hk1 hk2 =>
      (by decide :
        ∀ k, k < 256 → (27 ≤ k →
          occursAt ("Here is the result:\n```json\n\x7b\"summary\":\x7b\"total_issues\":1,\"critical\":1,\"warning\":0,\"informational\":0\x7d,\"findings\":[\x7b\"category\":\"Payment Terms\",\"severity\":\"critical\",\"issue\":\"No GMP\",\"details\":\"...\",\"location\":\"Article 4\",\"recommendation\":\"Add GMP clause\"\x7d]\x7d\n```" : String).data "```".data k = false))
        k hk2 hk1)

/-! ## Claim C4 -/

theorem occursAt_false_of_length_le {hay sub : List Char} {k : Nat}
    (hsub : sub ≠ []) (h : hay.length ≤ k) : occursAt hay sub k = false := by
  by_contra hocc
  rw [Bool.not_eq_false] at hocc
  exact absurd (lt_length_of_occursAt hsub hocc) (by omega)

/-- Counterexample to C4 as stated: for the completion text consisting of
an opening tagged fence followed by a JSON object and no closing fence, the
extracted candidate is neither the entire remainder after the opening fence
nor that remainder trimmed — Python's `find` returns `-1` for the missing
closing fence and slicing up to `-1` drops the final character. -/
theorem unclosed_fence_remainder_counterexample :
    extractJson "```json\n\x7b\"a\": 1\x7d" ≠ "\n\x7b\"a\": 1\x7d" ∧
    extractJson "```json\n\x7b\"a\": 1\x7d" ≠ pyStrip "\n\x7b\"a\": 1\x7d" := by
  exact ⟨by decide, by decide⟩

/-- Claim C4 (corrected): with an opening fence (tagged, or bare with no
tagged fence present) and no fence occurrence after it, extraction takes
the remainder of the string after the opening fence with its final
character removed, trimmed of surrounding whitespace — not the entire
remainder. -/
theorem unclosed_fence_extraction_amended (s : String) :
    (∀ i, occursAt s.data "```json".data i = true →
      (∀ k, k < i → occursAt s.data "```json".data k = false) →
      (∀ k, i + 7 ≤ k → occursAt s.data "```".data k = false) →
      extractJson s = pyStrip ⟨(s.data.drop (i + 7)).dropLast⟩) ∧
    (pyIn "```json" s = false →
      ∀ i, occursAt s.data "```".data i = true →
        (∀ k, k < i → occursAt s.data "```".data k = false) →
        (∀ k, i + 3 ≤ k → occursAt s.data "```".data k = false) →
        extractJson s = pyStrip ⟨(s.data.drop (i + 3)).dropLast⟩) := by
  have htag : ("```json" : String).data ≠ [] := by decide
  have hfen : ("```" : String).data ≠ [] := by decide
  constructor
  · intro i h1 h2 h3
    have hfind1 : pyFindNat s.data "```json".data 0 = some i :=
      (pyFindNat_some_iff htag s.data 0 i).mpr
        ⟨Nat.zero_le i, h1, fun k _ hk => h2 k hk⟩
    have hin1 : pyIn "```json" s = true := by
      rw [pyIn, hfind1]
      rfl
    have hilen : i + 7 ≤ s.data.length := by
      have := add_length_le_of_occursAt htag h1
      simpa using this
    have hfind2 : pyFindNat s.data "```".data (i + 7) = none :=
      (pyFindNat_none_iff hfen s.data (i + 7)).mpr (fun k hk => h3 k hk)
    simp only [extractJson, hin1, if_true]
    rw [pyFind_eq_some hfind1]
    have hcast7 : ((i : Int) + 7).toNat = i + 7 := by omega
    rw [hcast7, pyFind_eq_neg_one hfind2]
    have : ((i : Int) + 7) = ((i + 7 : Nat) : Int) := by omega
    rw [this, pySlice_negOne s (i + 7) hilen]
  · intro hno i h1 h2 h3
    have hfind1 : pyFindNat s.data "```".data 0 = some i :=
      (pyFindNat_some_iff hfen s.data 0 i).mpr
        ⟨Nat.zero_le i, h1, fun k _ hk => h2 k hk⟩
    have hin1 : pyIn "```" s = true := by
      rw [pyIn, hfind1]
      rfl
    have hilen : i + 3 ≤ s.data.length := by
      have := add_length_le_of_occursAt hfen h1
      simpa using this
    have hfind2 : pyFindNat s.data "```".data (i + 3) = none :=
      (pyFindNat_none_iff hfen s.data (i + 3)).mpr (fun k hk => h3 k hk)
    simp only [extractJson, hno, hin1, if_true, Bool.false_eq_true, if_false]
    rw [pyFind_eq_some hfind1]
    have hcast3 : ((i : Int) + 3).toNat = i + 3 := by omega
    rw [hcast3, pyFind_eq_neg_one hfind2]
    have : ((i : Int) + 3) = ((i + 3 : Nat) : Int) := by omega
    rw [this, pySlice_negOne s (i + 3) hilen]

set_option maxRecDepth 1000000 in
/-- Witness for the amended C4 at the counterexample text: the tagged fence
opens at index 0 and nothing closes it, so the candidate is the remainder
after the tag minus its last character, stripped. -/
theorem unclosed_fence_extraction_amended_witness :
    extractJson "```json\n\x7b\"a\": 1\x7d" =
      pyStrip ⟨((("```json\n\x7b\"a\": 1\x7d" : String).data.drop 7).dropLast)⟩ :=
  (unclosed_fence_extraction_amended "```json\n\x7b\"a\": 1\x7d").1 0
    (by decide)
    (by decide)
    (fun k hk => by
      by_cases hlt : k < 16
      · exact (by decide :
          ∀ k, k < 16 → (7 ≤ k →
            occursAt ("```json\n\x7b\"a\": 1\x7d" : String).data "```".data k = false))
          k hlt hk
      · exact occursAt_false_of_length_le (by decide)
          (by
            have hlen : ("```json\n\x7b\"a\": 1\x7d" : String).data.length = 16 := by decide
            omega))

/-! ## Claim C5 -/

/-- Counterexample to C5 as stated: a completion text with no fence and
surrounding whitespace is passed to the JSON parser unchanged — the code
only strips the candidate in the two fence branches, so the candidate is
not the trimmed text. -/
theorem no_fence_trim_counterexample :
    extractJson " \x7b\x7d " ≠ pyStrip " \x7b\x7d " := by decide

/-- Claim C5 (corrected): for a completion text containing no fence,
extraction uses the full text unchanged (not trimmed) as the JSON
candidate. -/
theorem no_fence_extraction_amended (s : String) (h : pyIn "```" s = false) :
    extractJson s = s := by
  have hfen : ("```" : String).data ≠ [] := by decide
  have htagf : pyIn "```json" s = false := by
    rw [pyIn_false_iff (by decide)]
    intro i
    by_contra hocc
    rw [Bool.not_eq_false] at hocc
    have hf := occursAt_fence_of_occursAt_tagged hocc
    rw [(pyIn_false_iff hfen s).mp h i] at hf
    cases hf
  simp only [extractJson, htagf, h, Bool.false_eq_true, if_false]

/-- Witness for the amended C5 at a concrete fence-free text. -/
theorem no_fence_extraction_amended_witness :
    extractJson " \x7b\x7d " = " \x7b\x7d " :=
  no_fence_extraction_amended " \x7b\x7d " (by decide)

/-! ## Claim C2 -/

/-- Counterexample to C2 as stated: starting from a session holding the
result of an earlier successful analysis, a failed attempt (service error
or extraction error — the call returns `None`) leaves the previous stale
result in place; the session's current analysis result is not unset. -/
theorem failed_attempt_stale_result_counterexample :
    (storeAnalysisOutcome
        { analysis_results := some sampleResult,
          uploaded_file_name := some "contract.txt",
          analysis_date := some "2025-09-01 10:00:00" }
        none "2025-09-02 09:00:00").analysis_results = some sampleResult ∧
      some sampleResult ≠ (none : Option AnalysisResult) :=
  ⟨rfl, by simp⟩

/-- Claim C2 (corrected): a failed analysis attempt stores no new result
and leaves the session state — including a previously stored
`AnalysisResult` — exactly as it was; the result is unset afterwards only
if it was already unset. -/
theorem failed_attempt_leaves_session_unchanged (s : Session) (now : String) :
    storeAnalysisOutcome s none now = s := rfl

/-! ## Claim C6 -/

/-- Claim C6 (confirmed): risk-banner selection is a pure function of the
summary's critical and warning counts with the fixed precedence
critical > 0 → high, else warning > 3 → moderate, else low; the three
characterizations are mutually exclusive and exhaustive, so exactly one
banner is shown, and the four concrete cases of the specification hold. -/
theorem risk_banner_selection :
    (∀ critical warning : Int,
      (riskLevel critical warning = .high ↔ 0 < critical) ∧
      (riskLevel critical warning = .moderate ↔ critical ≤ 0 ∧ 3 < warning) ∧
      (riskLevel critical warning = .low ↔ critical ≤ 0 ∧ warning ≤ 3)) ∧
    riskLevel 0 0 = .low ∧ riskLevel 0 4 = .moderate ∧
    riskLevel 1 0 = .high ∧ riskLevel 2 10 = .high := by
  refine ⟨?_, by decide, by decide, by decide, by decide⟩
  intro c w
  rw [riskLevel]
  split_ifs with h1 h2 <;> refine ⟨?_, ?_, ?_⟩ <;>
    constructor <;> intro h <;> simp_all <;> omega

/-! ## Claim C7 -/

/-- Claim C7 (confirmed): the displayed list is the findings whose severity
is in the selected subset — a sublist of the stored findings (hence in the
same relative order) containing each finding with a selected severity with
unchanged multiplicity and nothing else — and the display pass returns the
session state unchanged (the list comprehension builds a new list and the
display block performs no session write). -/
theorem severity_filter_view (r : AnalysisResult) (sel : List String) (s : Session) :
    (filteredFindings r.findings sel).Sublist r.findings ∧
    (∀ f : Finding, f ∈ filteredFindings r.findings sel ↔
      f ∈ r.findings ∧ f.severity ∈ sel) ∧
    (∀ f : Finding, (filteredFindings r.findings sel).count f =
      if f.severity ∈ sel then r.findings.count f else 0) ∧
    (displayResults s sel).2 = s := by
  refine ⟨List.filter_sublist _, ?_, ?_, ?_⟩
  · intro f
    rw [filteredFindings, List.mem_filter]
    simp
  · intro f
    by_cases hf : f.severity ∈ sel
    · rw [if_pos hf, filteredFindings]
      exact List.count_filter (by simpa using hf)
    · rw [if_neg hf, List.count_eq_zero]
      intro hmem
      rw [filteredFindings, List.mem_filter] at hmem
      exact hf (by simpa using hmem.2)
  · cases h : s.analysis_results <;> simp [displayResults, h]

/-! ## Claim C10 -/

/-- Claim C10 (confirmed): under any selection drawn from the filter's
three selectable options, every finding that the filter lets through has
one of the three tier severities — a finding with any other severity
string is never rendered. -/
theorem filtered_severities_subset (sel : List String) (findings : List Finding)
    (f : Finding) (hsel : sel ⊆ severityOptions)
    (hf : f ∈ filteredFindings findings sel) :
    f.severity ∈ severityOptions := by
  rw [filteredFindings, List.mem_filter] at hf
  exact hsel (by simpa using hf.2)

/-- Witness for C10 at the sample finding and the singleton selection. -/
theorem filtered_severities_subset_witness :
    sampleFinding.severity ∈ severityOptions :=
  filtered_severities_subset ["critical"] [sampleFinding] sampleFinding
    (by simp [severityOptions]) (by decide)

/-! ## Claim C9 -/

/-- A PDF upload: recognized MIME type, but the reader yields no text. -/
def pdfUpload : UploadedFile :=
  { name := "contract.pdf", mime := "application/pdf", decoded := none }

/-- Counterexample to C9 as stated: with an API key present and a PDF
uploaded (which yields no decoded text, only an advisory) and nothing
pasted, no valid contract text is available, yet the analyze control is
not disabled — its condition only checks that some file was uploaded or
some text pasted. -/
theorem pdf_upload_enables_control_counterexample :
    analyzeDisabled "sk-ant-key" (some pdfUpload) "" = false ∧
    contractTextVar (some pdfUpload) "" = none :=
  ⟨by decide, by decide⟩

/-- Claim C9 (corrected): the control's disabled condition checks only the
API key and the presence of an upload or pasted text, so an upload that
yields no text (PDF/Word, or an undecodable file) leaves the control
enabled; however the click handler re-checks the `contract_text` variable,
so whenever the analysis call actually runs, a non-empty contract text
exists — analysis still never starts without text. -/
theorem analysis_requires_nonempty_text (clicked : Bool) (api_key : String)
    (uploaded : Option UploadedFile) (manual : String)
    (h : analysisRuns clicked api_key uploaded manual = true) :
    ∃ t, contractTextVar uploaded manual = some t ∧ t ≠ "" := by
  rw [analysisRuns] at h
  simp only [Bool.and_eq_true] at h
  obtain ⟨-, htext⟩ := h
  cases hct : contractTextVar uploaded manual with
  | none =>
    rw [hct] at htext
    cases htext
  | some t =>
    rw [hct] at htext
    refine ⟨t, rfl, ?_⟩
    simpa using htext

/-- Witness for the amended C9: a run with pasted text supplies that text. -/
theorem analysis_requires_nonempty_text_witness :
    ∃ t, contractTextVar none "Sample contract text" = some t ∧ t ≠ "" :=
  analysis_requires_nonempty_text true "sk-ant-key" none "Sample contract text"
    (by decide)

/-! ## Claim C8 -/

/-- Substring containment stated by explicit decomposition. -/
def ContainsSub (hay sub : String) : Prop :=
  ∃ pre post, hay = pre ++ sub ++ post

theorem strFoldl_append (l : List String) :
    ∀ a : String, List.foldl (· ++ ·) a l = a ++ List.foldl (· ++ ·) "" l := by
  induction l with
  | nil => intro a; simp [String.append_empty]
  | cons x t ih =>
    intro a
    rw [List.foldl_cons, List.foldl_cons, String.empty_append, ih (a ++ x), ih x,
      String.append_assoc]

theorem strJoin_cons (a : String) (l : List String) :
    String.join (a :: l) = a ++ String.join l := by
  show List.foldl (· ++ ·) "" (a :: l) = a ++ List.foldl (· ++ ·) "" l
  rw [List.foldl_cons, String.empty_append]
  exact strFoldl_append l a

theorem strFoldl_entry (l : List (Nat × Finding)) :
    ∀ init : String,
      l.foldl (fun report p => report ++ findingEntry p.1 p.2) init =
        init ++ String.join (l.map (fun p => findingEntry p.1 p.2)) := by
  induction l with
  | nil => intro init; simp [String.join, String.append_empty]
  | cons p t ih =>
    intro init
    rw [List.foldl_cons, ih, List.map_cons, strJoin_cons, String.append_assoc]

/-- The session of the specification's scenario after a successful
analysis of manually pasted text. -/
def sampleSession : Session :=
  { analysis_results := some sampleResult, uploaded_file_name := none,
    analysis_date := some "2025-09-01 10:00:00" }

/-- Claim C8 (confirmed): the exported text report is the fixed header
followed by one entry per finding of the unfiltered stored result, in
stored order, numbered from 1 by the enumeration — so every finding
appears exactly once — and it is unaffected by the active severity filter;
each entry displays the numbering, the uppercased severity and the issue,
and the category, details, location and recommendation fields. -/
theorem report_enumerates_unfiltered (s : Session) (r : AnalysisResult)
    (sel sel2 : List String) (generated : String) :
    (s.analysis_results = some r →
      exportReport s sel generated =
        some (reportHeader generated s.uploaded_file_name r.summary ++
          String.join ((r.findings.enumFrom 1).map (fun p => findingEntry p.1 p.2)))) ∧
    exportReport s sel generated = exportReport s sel2 generated ∧
    (∀ idx f, ContainsSub (findingEntry idx f)
        (toString idx ++ ". [" ++ pyUpper f.severity ++ "] " ++ f.issue) ∧
      ContainsSub (findingEntry idx f) ("   Category: " ++ f.category) ∧
      ContainsSub (findingEntry idx f) ("   Details: " ++ f.details) ∧
      ContainsSub (findingEntry idx f) ("   Location: " ++ f.location) ∧
      ContainsSub (findingEntry idx f) ("   Recommendation: " ++ f.recommendation)) := by
  refine ⟨?_, ?_, ?_⟩
  · intro h
    rw [exportReport, h]
    simp only [Option.some.injEq]
    rw [buildReport, strFoldl_entry]
  · rfl
  · intro idx f
    refine ⟨⟨"\n", "\n" ++ "   Category: " ++ f.category ++ "\n" ++
        "   Details: " ++ f.details ++ "\n" ++ "   Location: " ++ f.location ++ "\n" ++
        "   Recommendation: " ++ f.recommendation ++ "\n" ++ "\n",
        by rw [findingEntry]; simp only [String.append_assoc]⟩,
      ⟨"\n" ++ toString idx ++ ". [" ++ pyUpper f.severity ++ "] " ++ f.issue ++ "\n",
        "\n" ++ "   Details: " ++ f.details ++ "\n" ++ "   Location: " ++ f.location ++ "\n" ++
        "   Recommendation: " ++ f.recommendation ++ "\n" ++ "\n",
        by rw [findingEntry]; simp only [String.append_assoc]⟩,
      ⟨"\n" ++ toString idx ++ ". [" ++ pyUpper f.severity ++ "] " ++ f.issue ++ "\n" ++
        "   Category: " ++ f.category ++ "\n",
        "\n" ++ "   Location: " ++ f.location ++ "\n" ++
        "   Recommendation: " ++ f.recommendation ++ "\n" ++ "\n",
        by rw [findingEntry]; simp only [String.append_assoc]⟩,
      ⟨"\n" ++ toString idx ++ ". [" ++ pyUpper f.severity ++ "] " ++ f.issue ++ "\n" ++
        "   Category: " ++ f.category ++ "\n" ++ "   Details: " ++ f.details ++ "\n",
        "\n" ++ "   Recommendation: " ++ f.recommendation ++ "\n" ++ "\n",
        by rw [findingEntry]; simp only [String.append_assoc]⟩,
      ⟨"\n" ++ toString idx ++ ". [" ++ pyUpper f.severity ++ "] " ++ f.issue ++ "\n" ++
        "   Category: " ++ f.category ++ "\n" ++ "   Details: " ++ f.details ++ "\n" ++
        "   Location: " ++ f.location ++ "\n",
        "\n" ++ "\n",
        by rw [findingEntry]; simp only [String.append_assoc]⟩⟩

/-- Witness for C8: the report of the scenario session, under a filter
selecting only critical findings, still enumerates all stored findings. -/
theorem report_enumerates_unfiltered_witness :
    exportReport sampleSession ["critical"] "2025-10-12 00:00:00" =
      some (reportHeader "2025-10-12 00:00:00" sampleSession.uploaded_file_name
          sampleResult.summary ++
        String.join ((sampleResult.findings.enumFrom 1).map
          (fun p => findingEntry p.1 p.2))) :=
  (report_enumerates_unfiltered sampleSession sampleResult ["critical"] []
    "2025-10-12 00:00:00").1 rfl

end ContractAnalyzer
